import Mathlib

/-!
Verification of the LinkedIn-post-generator client.

A shallow embedding of the stream-consumption and editing logic of the
browser client (`frontend/src/App.tsx` and
`frontend/src/components/PostCard.tsx`), together with proofs of the
behavioural properties claimed in the specification.

JavaScript strings are modelled as lists of characters (`JSStr`), one
entry per code point.  The incremental `TextDecoder` used by the client
(`decode(value, {stream: true})`) guarantees that the concatenation of
the decoded chunks equals the decoded concatenation of the byte chunks,
so network chunks are modelled directly as the decoded text pieces.

Runtime values flowing through the client are untyped JavaScript values
produced by `JSON.parse` (the TypeScript annotations `StreamingEvent` /
`GeneratedPost` are erased at runtime and the casts in the source are
no-ops), so events and posts are modelled by a JSON value type `Json`.
-/

/-- A JavaScript string, as a list of characters. -/
abbrev JSStr := List Char

/-- Embed a Lean string literal as a `JSStr`. -/
def js (s : String) : JSStr := s.data

/-- The character class matched by the JavaScript regex `\s` (and used by
`String.prototype.trim`): ASCII whitespace, NBSP, BOM, line/paragraph
separators and the Unicode `Zs` spaces. -/
def jsWsChar (c : Char) : Bool :=
  c = ' ' || c = '\t' || c = '\n' || c = '\r' || c = '\x0b' || c = '\x0c' ||
  c = '\u00A0' || c = '\u1680' || (0x2000 ≤ c.toNat && c.toNat ≤ 0x200A) ||
  c = '\u2028' || c = '\u2029' || c = '\u202F' || c = '\u205F' ||
  c = '\u3000' || c = '\uFEFF'

/-- JavaScript `String.prototype.trim`: drop leading and trailing
whitespace characters. -/
def jsTrim (s : JSStr) : JSStr :=
  ((s.dropWhile jsWsChar).reverse.dropWhile jsWsChar).reverse

/-- Prepend a character to the first element of a list of strings
(used to build the heads of `split` results). -/
def consHead (c : Char) : List JSStr → List JSStr
  | [] => [[c]]
  | p :: ps => (c :: p) :: ps

/-- JavaScript `buffer.split("\n\n")`: leftmost-first, non-overlapping
splitting on a blank line (two consecutive newlines). -/
def splitEvents : JSStr → List JSStr
  | [] => [[]]
  | [c] => [[c]]
  | c₁ :: c₂ :: t =>
    if c₁ = '\n' ∧ c₂ = '\n' then [] :: splitEvents t
    else consHead c₁ (splitEvents (c₂ :: t))

/-- JavaScript `part.split("\n")`: splitting on single newlines. -/
def splitLines : JSStr → List JSStr
  | [] => [[]]
  | c :: t => if c = '\n' then [] :: splitLines t else consHead c (splitLines t)

/-- JavaScript `s.startsWith("data:")`. -/
def startsWithData (s : JSStr) : Bool := (js "data:").isPrefixOf s

/-- JavaScript `l.replace(/^data:\s?/, "")`: if the string starts with the literal
`data:`, remove it together with at most one following whitespace
character (`\s` matches any JavaScript whitespace, not just a space);
otherwise the string is unchanged. -/
def stripDataMark (s : JSStr) : JSStr :=
  if (js "data:").isPrefixOf s then
    match s.drop 5 with
    | [] => []
    | c :: t => if jsWsChar c then t else c :: t
  else s

/-- JavaScript `lines.join("\n")`. -/
def joinNl (ls : List JSStr) : JSStr := List.intercalate ['\n'] ls

/-! JSON values:

The untyped values produced by `JSON.parse`.  Numbers keep their source
lexeme: the client never computes with stream-event numbers, so only the
grammar (and zero-ness, for truthiness) is relevant. -/

inductive Json where
  | jnull
  | jbool (b : Bool)
  | jnum (lexeme : JSStr)
  | jstr (s : JSStr)
  | jarr (elems : List Json)
  | jobj (fields : List (JSStr × Json))

/-- Property access `obj[key]` on a parsed JSON value: `none` models
JavaScript `undefined`.  `JSON.parse` keeps the last of duplicate keys,
so the last binding wins. -/
def jsGet (j : Json) (key : JSStr) : Option Json :=
  match j with
  | .jobj fields => (fields.filter (fun f => f.1 = key)).getLast?.map (·.2)
  | _ => none

/-- Digits of a decimal string read as a natural number. -/
def digitsToNat (ds : JSStr) : Nat :=
  ds.foldl (fun n c => n * 10 + (c.toNat - '0'.toNat)) 0

/-- Decomposition of a JSON number lexeme `-? int frac? ([eE] sign?
digits)?` into its mantissa `M` (sign dropped, decimal point removed,
read as an integer) and net base-10 exponent `E`, so that the literal
denotes `± M × 10^E`. -/
def numLexemeParts (lexeme : JSStr) : Nat × Int :=
  let noSign : JSStr := match lexeme with
    | '-' :: t => t
    | _ => lexeme
  let mantPart := noSign.takeWhile (fun c => c ≠ 'e' ∧ c ≠ 'E')
  let expDigits := (noSign.dropWhile (fun c => c ≠ 'e' ∧ c ≠ 'E')).tail
  let intPart := mantPart.takeWhile (fun c => c ≠ '.')
  let fracPart := (mantPart.dropWhile (fun c => c ≠ '.')).tail
  let e10 : Int := match expDigits with
    | '-' :: t => -(digitsToNat t : Int)
    | '+' :: t => (digitsToNat t : Int)
    | t => (digitsToNat t : Int)
  (digitsToNat (intPart ++ fracPart), e10 - fracPart.length)

/-- Zero test on a JSON number lexeme: the literal evaluates to the
double `0` (or `-0`) exactly when every mantissa digit is `0`, or when
the magnitude underflows double precision — under round-to-nearest-even
a positive value rounds to zero precisely when it is at most
`2^(-1075)` (half the least subnormal, the tie going to the even `0`),
i.e. when `M × 2^1075 ≤ 10^(-E)`.  Decided by exact integer
arithmetic. -/
def numLexemeIsZero (lexeme : JSStr) : Bool :=
  let p := numLexemeParts lexeme
  decide (p.1 = 0 ∨ (p.2 < 0 ∧ p.1 * 2 ^ 1075 ≤ 10 ^ (-p.2).toNat))

/-- JavaScript truthiness of a property-access result (`undefined`,
`null`, `false`, `0` and `""` are falsy; objects and arrays are truthy). -/
def jsTruthy : Option Json → Bool
  | none => false
  | some .jnull => false
  | some (.jbool b) => b
  | some (.jnum lexeme) => !numLexemeIsZero lexeme
  | some (.jstr s) => !s.isEmpty
  | some (.jarr _) => true
  | some (.jobj _) => true

/-- The strict comparison `value.type === "<tag>"`: true exactly when the
`type` property exists and is the given string. -/
def typeIs (j : Json) (tag : JSStr) : Bool :=
  match jsGet j (js "type") with
  | some (.jstr s) => s = tag
  | _ => false

/-! Embedding of `JSON.parse`.

A recursive-descent parser for the JSON grammar accepted by
`JSON.parse` (ECMA-404: strict numbers, double-quoted strings with the
seven named escapes plus `\uXXXX`, `[ \t\n\r]` whitespace, whole-input
consumption).  Errors carry a short description standing in for the
`SyntaxError` message.  Recursion is bounded by a fuel parameter; the
top-level entry point supplies more fuel than any input can consume
(every parser step consumes input before at most two nested calls). -/

/-- JSON whitespace (`space`, `tab`, `newline`, `carriage return`). -/
def jsonWs (c : Char) : Bool := c = ' ' || c = '\t' || c = '\n' || c = '\r'

def skipWs (s : JSStr) : JSStr := s.dropWhile jsonWs

def hexVal (c : Char) : Option Nat :=
  if '0' ≤ c ∧ c ≤ '9' then some (c.toNat - '0'.toNat)
  else if 'a' ≤ c ∧ c ≤ 'f' then some (c.toNat - 'a'.toNat + 10)
  else if 'A' ≤ c ∧ c ≤ 'F' then some (c.toNat - 'A'.toNat + 10)
  else none

/-- Parse the body of a JSON string after the opening quote, returning
the decoded characters and the input following the closing quote. -/
def parseStringBody : Nat → JSStr → Except JSStr (JSStr × JSStr)
  | 0, _ => .error (js "parser fuel exhausted")
  | _ + 1, [] => .error (js "Unterminated string in JSON")
  | _ + 1, '"' :: rest => .ok ([], rest)
  | fuel + 1, '\\' :: rest =>
    match rest with
    | [] => .error (js "Unterminated string in JSON")
    | 'u' :: a :: b :: c :: d :: rs =>
      match hexVal a, hexVal b, hexVal c, hexVal d with
      | some ha, some hb, some hc, some hd =>
        (parseStringBody fuel rs).map
          (fun r => (Char.ofNat (((ha * 16 + hb) * 16 + hc) * 16 + hd) :: r.1, r.2))
      | _, _, _, _ => .error (js "Bad Unicode escape in JSON")
    | e :: rs =>
      let esc : Option Char :=
        if e = '"' then some '"' else if e = '\\' then some '\\'
        else if e = '/' then some '/' else if e = 'b' then some '\x08'
        else if e = 'f' then some '\x0c' else if e = 'n' then some '\n'
        else if e = 'r' then some '\r' else if e = 't' then some '\t'
        else none
      match esc with
      | some c => (parseStringBody fuel rs).map (fun r => (c :: r.1, r.2))
      | none => .error (js "Bad escaped character in JSON")
  | fuel + 1, c :: rest =>
    if c.toNat < 0x20 then .error (js "Bad control character in JSON string")
    else (parseStringBody fuel rest).map (fun r => (c :: r.1, r.2))

/-- Parse a JSON number, returning its lexeme and the remaining input.
Grammar: `-? (0 | [1-9][0-9]*) (. [0-9]+)? ([eE][+-]?[0-9]+)?`. -/
def parseNumberLexeme (s : JSStr) : Except JSStr (JSStr × JSStr) :=
  let (sign, s₁) := match s with
    | '-' :: t => (['-'], t)
    | _ => (([] : JSStr), s)
  let intPart : Except JSStr (JSStr × JSStr) :=
    match s₁ with
    | '0' :: t => .ok (['0'], t)
    | c :: t =>
      if c.isDigit then .ok (c :: t.takeWhile Char.isDigit, t.dropWhile Char.isDigit)
      else .error (js "Unexpected token in JSON")
    | [] => .error (js "Unexpected end of JSON input")
  match intPart with
  | .error e => .error e
  | .ok (ip, r₁) =>
    let fracPart : Except JSStr (JSStr × JSStr) :=
      match r₁ with
      | '.' :: t =>
        match t.takeWhile Char.isDigit with
        | [] => .error (js "Unterminated fractional number in JSON")
        | ds => .ok ('.' :: ds, t.dropWhile Char.isDigit)
      | _ => .ok ([], r₁)
    match fracPart with
    | .error e => .error e
    | .ok (fp, r₂) =>
      match r₂ with
      | e :: t =>
        if e = 'e' || e = 'E' then
          let (es, t₁) := match t with
            | '+' :: u => (['+'], u)
            | '-' :: u => (['-'], u)
            | _ => (([] : JSStr), t)
          match t₁.takeWhile Char.isDigit with
          | [] => .error (js "Exponent part is missing a number in JSON")
          | ds => .ok (sign ++ ip ++ fp ++ e :: es ++ ds, t₁.dropWhile Char.isDigit)
        else .ok (sign ++ ip ++ fp, r₂)
      | [] => .ok (sign ++ ip ++ fp, [])

mutual

/-- Parse one JSON value (leading whitespace allowed), returning the
value and the remaining input. -/
def parseValue : Nat → JSStr → Except JSStr (Json × JSStr)
  | 0, _ => .error (js "parser fuel exhausted")
  | fuel + 1, s =>
    match skipWs s with
    | [] => .error (js "Unexpected end of JSON input")
    | '{' :: t =>
      (match skipWs t with
       | '}' :: r => .ok (.jobj [], r)
       | u => (parseMembers fuel u).map (fun r => (.jobj r.1, r.2)))
    | '[' :: t =>
      (match skipWs t with
       | ']' :: r => .ok (.jarr [], r)
       | u => (parseElems fuel u).map (fun r => (.jarr r.1, r.2)))
    | '"' :: t => (parseStringBody (t.length + 1) t).map (fun r => (.jstr r.1, r.2))
    | 't' :: 'r' :: 'u' :: 'e' :: r => .ok (.jbool true, r)
    | 'f' :: 'a' :: 'l' :: 's' :: 'e' :: r => .ok (.jbool false, r)
    | 'n' :: 'u' :: 'l' :: 'l' :: r => .ok (.jnull, r)
    | c :: t =>
      if c = '-' || c.isDigit then
        (parseNumberLexeme (c :: t)).map (fun r => (.jnum r.1, r.2))
      else .error (js "Unexpected token in JSON")

/-- Parse the elements of a non-empty JSON array (after `[`). -/
def parseElems : Nat → JSStr → Except JSStr (List Json × JSStr)
  | 0, _ => .error (js "parser fuel exhausted")
  | fuel + 1, s =>
    match parseValue fuel s with
    | .error e => .error e
    | .ok (v, r) =>
      match skipWs r with
      | ',' :: t => (parseElems fuel t).map (fun q => (v :: q.1, q.2))
      | ']' :: t => .ok ([v], t)
      | _ => .error (js "Expected , or ] after array element in JSON")

/-- Parse the members of a non-empty JSON object (after `{`). -/
def parseMembers : Nat → JSStr → Except JSStr (List (JSStr × Json) × JSStr)
  | 0, _ => .error (js "parser fuel exhausted")
  | fuel + 1, s =>
    match skipWs s with
    | '"' :: t =>
      (match parseStringBody (t.length + 1) t with
       | .error e => .error e
       | .ok (k, r) =>
         match skipWs r with
         | ':' :: t₂ =>
           (match parseValue fuel t₂ with
            | .error e => .error e
            | .ok (v, r₂) =>
              match skipWs r₂ with
              | ',' :: t₃ => (parseMembers fuel t₃).map (fun q => ((k, v) :: q.1, q.2))
              | '}' :: t₃ => .ok ([(k, v)], t₃)
              | _ => .error (js "Expected , or \x7d after property value in JSON"))
         | _ => .error (js "Expected : after property name in JSON"))
    | _ => .error (js "Expected double-quoted property name in JSON")

end

/-- `JSON.parse`: parse a complete JSON text; trailing non-whitespace is
an error. -/
def jsonParse (s : JSStr) : Except JSStr Json :=
  match parseValue (4 * (s.length + 1)) s with
  | .error e => .error e
  | .ok (v, rest) =>
    if skipWs rest = [] then .ok v
    else .error (js "Unexpected non-whitespace character after JSON")

/-! The stream consumer (`App.tsx`, `handleSubmit` lines 63–113).

The read loop of `handleSubmit` is embedded as a recursive function over
the list of decoded network chunks.  The mutable React state touched by
the loop (`events`, `posts`, `isLoading`) and the local variables
(`buffer`, plus whether `controller.abort()` has been called) form
`LoopState`.

One aspect of the environment must be modelled explicitly: after a
terminal event the code runs `controller.abort()` and `break`s out of
the inner `for` loop only — the `while` loop then calls
`reader.read()` again on the aborted response body.  Per the Fetch and
Streams specifications, aborting the request errors the body stream, so
this read rejects with an `AbortError` (landing in the `catch` block,
which appends a `PROGRESS`/`Stream aborted.` event) — unless the
server's close of the stream was processed first, in which case the
read resolves with `done` and the loop exits normally.  Which of the
two happens depends on network timing, so it is a parameter
(`abortReadRejects`) of the run.  A read that is pending when the user
presses Cancel always rejects with `AbortError`. -/

structure LoopState where
  buffer : JSStr
  events : List Json
  posts : List Json
  isLoading : Bool
  aborted : Bool

/-- The event object pushed by the `catch` block on `AbortError`:
`{ type: "PROGRESS", message: "Stream aborted." }`. -/
def abortNoticeEvent : Json :=
  .jobj [(js "type", .jstr (js "PROGRESS")), (js "message", .jstr (js "Stream aborted."))]

/-- The event object pushed when `JSON.parse` throws:
`{ type: "ERROR", message: "Failed to parse event: " + e }` (the model
embeds its own parse-error description where the browser embeds the
`SyntaxError` text). -/
def parseErrorEvent (e : JSStr) : Json :=
  .jobj [(js "type", .jstr (js "ERROR")), (js "message", .jstr (js "Failed to parse event: " ++ e))]

/-- The event object pushed on a non-OK or bodyless response:
`{ type: "ERROR", message: "Server error: " + status + " " + text }`. -/
def serverErrorEvent (status : Nat) (text : JSStr) : Json :=
  .jobj [(js "type", .jstr (js "ERROR")),
         (js "message", .jstr (js "Server error: " ++ js (toString status) ++ [' '] ++ text))]

/-- Lines 84–93: handling of one successfully parsed event:
`pushEvent(parsed)`; push the payload to the post list when
`parsed.type === "POST_GENERATED" && parsed.payload`; on
`parsed.type === "COMPLETE" || parsed.type === "ERROR"` run
`setIsLoading(false)`, `controller.abort()` and `break` (the `break` is
recorded by the `aborted` flag, which is set exactly then).  Known
model divergence: property access on a parsed `null` is modelled as
`undefined`, whereas the real `parsed.type` on `null` throws a
TypeError that lands in the `catch` of lines 94–98 and appends a
second, ERROR event after the `null` one; no claim depends on a
`data: null` segment. -/
def applyEvent (st : LoopState) (parsed : Json) : LoopState :=
  let st₁ := { st with events := st.events ++ [parsed] }
  let st₂ :=
    if typeIs parsed (js "POST_GENERATED") ∧ jsTruthy (jsGet parsed (js "payload")) then
      match jsGet parsed (js "payload") with
      | some payload => { st₁ with posts := st₁.posts ++ [payload] }
      | none => st₁
    else st₁
  if typeIs parsed (js "COMPLETE") ∨ typeIs parsed (js "ERROR") then
    { st₂ with isLoading := false, aborted := true }
  else st₂

/-- The trimmed lines of a segment that start with `data:`
(lines 76–77). -/
def segmentDataLines (part : JSStr) : List JSStr :=
  ((splitLines part).map jsTrim).filter startsWithData

/-- The reconstructed JSON payload text of a segment: prefix-stripped
`data:` lines joined with newlines (lines 79–81). -/
def segmentPayload (part : JSStr) : JSStr :=
  joinNl ((segmentDataLines part).map stripDataMark)

/-- Lines 75–99: processing of one blank-line-delimited segment. -/
def processPart (st : LoopState) (part : JSStr) : LoopState :=
  if segmentDataLines part = [] then st
  else
    match jsonParse (segmentPayload part) with
    | .ok parsed => applyEvent st parsed
    | .error e => { st with events := st.events ++ [parseErrorEvent e] }

/-- The `for (const part of parts)` loop: a terminal event `break`s out
before the remaining segments are processed. -/
def processParts (st : LoopState) : List JSStr → LoopState
  | [] => st
  | p :: ps =>
    let st' := processPart st p
    if st'.aborted then st' else processParts st' ps

/-- Lines 70–100: append a decoded chunk to the buffer, split on blank
lines, retain the final (possibly incomplete) segment as the new buffer
(`parts.pop() || ""`), and process the fully-formed segments. -/
def processChunk (st : LoopState) (c : JSStr) : LoopState :=
  let parts := splitEvents (st.buffer ++ c)
  processParts { st with buffer := parts.getLastD [] } parts.dropLast

/-- The `catch` branch for an `AbortError`: push the
`PROGRESS`/`Stream aborted.` event, `setIsLoading(false)` (the
cancellation handle is also cleared by `finally`). -/
def catchAbort (st : LoopState) : LoopState :=
  { st with events := st.events ++ [abortNoticeEvent], isLoading := false }

/-- Normal loop exit (`done`) : `setIsLoading(false)` after the loop. -/
def finishLoop (st : LoopState) : LoopState :=
  { st with isLoading := false }

/-- The `while (true)` read loop.  `chunks` are the chunks the server
still has to deliver; `cancelAt = some k` means the user presses Cancel
while the `(k+1)`-st read is pending (that read then rejects with
`AbortError`); `abortReadRejects` resolves the race described above for
the read issued after `controller.abort()`. -/
def consumeFrom (abortReadRejects : Bool) (st : LoopState) (cancelAt : Option Nat) :
    List JSStr → LoopState
  | [] =>
    if st.aborted then
      if abortReadRejects then catchAbort st else finishLoop st
    else if cancelAt = some 0 then catchAbort st
    else finishLoop st
  | c :: cs =>
    if st.aborted then
      if abortReadRejects then catchAbort st else finishLoop st
    else if cancelAt = some 0 then catchAbort st
    else consumeFrom abortReadRejects (processChunk st c) (cancelAt.map Nat.pred) cs

/-- The loop state after delivering a list of chunks with no
cancellation and no loop exit yet (auxiliary, for stating mid-stream
properties). -/
def feed (st : LoopState) : List JSStr → LoopState
  | [] => st
  | c :: cs => if st.aborted then st else feed (processChunk st c) cs

/-- Initial `LoopState` at entry of the read loop: `setEvents([])`,
`setPosts([])`, `setIsLoading(true)` ran at the start of
`handleSubmit`, and the response was accepted. -/
def initLoopState : LoopState :=
  { buffer := [], events := [], posts := [], isLoading := true, aborted := false }

/-- The submission's response: either an OK response whose body streams
the given chunks, or a response failing the `!res.ok || !res.body`
check (carrying `res.status` and the `res.text()` body; `status` may
also be a success code when only the body is missing). -/
inductive FetchResult where
  | ok (chunks : List JSStr)
  | noStream (status : Nat) (text : JSStr)

/-- Model of `handleSubmit` after the initial state reset: on a `noStream`
response push one server-error event and stop without reading
(lines 53–61); otherwise enter the read loop. -/
def handleSubmitRun (abortReadRejects : Bool) (cancelAt : Option Nat) :
    FetchResult → LoopState
  | .noStream status text =>
    { buffer := [], events := [serverErrorEvent status text], posts := [],
      isLoading := false, aborted := false }
  | .ok chunks => consumeFrom abortReadRejects initLoopState cancelAt chunks

/-! The session state machine (`App`, `handleSubmit` / `handleCancel`).

For the session-level invariant the client is modelled as a transition
system whose steps are the external stimuli (a submission, the response
arriving, a chunk arriving, the stream ending, a network error, the
Cancel click).  JavaScript is single-threaded: each stimulus runs its
handler code together with all microtasks it unblocks before any other
stimulus can be observed, so one step includes e.g. the `catch` /
`finally` continuations that an abort makes runnable.  `handleHeld`
models `abortRef.current !== null`. -/

inductive Phase where
  | idle
  | awaitingResponse
  | streaming
  deriving DecidableEq

structure Session where
  events : List Json
  posts : List Json
  isLoading : Bool
  handleHeld : Bool
  phase : Phase
  buffer : JSStr

/-- The state before any interaction. -/
def initSession : Session :=
  { events := [], posts := [], isLoading := false, handleHeld := false,
    phase := .idle, buffer := [] }

/-- The event object pushed by the `catch` block on a non-abort error:
`{ type: "ERROR", message: String(err) }`. -/
def netErrorEvent (msg : JSStr) : Json :=
  .jobj [(js "type", .jstr (js "ERROR")), (js "message", .jstr msg)]

/-- Delivery of one chunk while streaming: run the loop body; if it hit
a terminal event the handler also runs the post-abort read (whose
outcome is `rejects`), the `catch` and the `finally`, ending the
submission. -/
def chunkStep (s : Session) (c : JSStr) (rejects : Bool) : Session :=
  let st := processChunk
    { buffer := s.buffer, events := s.events, posts := s.posts,
      isLoading := s.isLoading, aborted := false } c
  if st.aborted then
    let st' := if rejects then catchAbort st else finishLoop st
    { events := st'.events, posts := st'.posts, isLoading := false,
      handleHeld := false, phase := .idle, buffer := st'.buffer }
  else
    { s with events := st.events, posts := st.posts, buffer := st.buffer }

/-- The external stimuli and their effect on the session state. -/
inductive Step : Session → Session → Prop
  /-- Submission (the generate button is disabled while `isLoading`):
  reset both lists, set the flag, store the new `AbortController`. -/
  | submit (s : Session) (h : s.isLoading = false) :
      Step s { events := [], posts := [], isLoading := true, handleHeld := true,
               phase := .awaitingResponse, buffer := [] }
  /-- The fetch resolves with an OK, streamable response. -/
  | respondOk (s : Session) (h : s.phase = .awaitingResponse) :
      Step s { s with phase := .streaming, buffer := [] }
  /-- The fetch resolves but `!res.ok || !res.body`: push one
  server-error event, `setIsLoading(false)`, return (and `finally`
  clears the handle). -/
  | respondFail (s : Session) (status : Nat) (text : JSStr)
      (h : s.phase = .awaitingResponse) :
      Step s { s with events := s.events ++ [serverErrorEvent status text],
                      isLoading := false, handleHeld := false, phase := .idle }
  /-- The fetch rejects with a non-abort error: the `catch` pushes an
  error event and the submission ends. -/
  | fetchNetError (s : Session) (msg : JSStr) (h : s.phase = .awaitingResponse) :
      Step s { s with events := s.events ++ [netErrorEvent msg],
                      isLoading := false, handleHeld := false, phase := .idle }
  /-- A chunk is delivered while streaming. -/
  | chunk (s : Session) (c : JSStr) (rejects : Bool) (h : s.phase = .streaming) :
      Step s (chunkStep s c rejects)
  /-- The read resolves with `done`: the loop exits,
  `setIsLoading(false)` runs and `finally` clears the handle. -/
  | streamEnd (s : Session) (h : s.phase = .streaming) :
      Step s { s with isLoading := false, handleHeld := false, phase := .idle }
  /-- A pending read rejects with a non-abort error mid-stream. -/
  | readNetError (s : Session) (msg : JSStr) (h : s.phase = .streaming) :
      Step s { s with events := s.events ++ [netErrorEvent msg],
                      isLoading := false, handleHeld := false, phase := .idle }
  /-- The Cancel click (the button is rendered only while `isLoading`)
  with a handle held: `abortRef.current.abort()` rejects the pending
  await, whose `catch` pushes the abort notice and whose `finally`
  clears the handle; `handleCancel` itself runs `setIsLoading(false)`. -/
  | cancel (s : Session) (h : s.isLoading = true) (hh : s.handleHeld = true) :
      Step s { s with events := s.events ++ [abortNoticeEvent],
                      isLoading := false, handleHeld := false, phase := .idle }
  /-- The Cancel click with no handle held: only `setIsLoading(false)`. -/
  | cancelNoHandle (s : Session) (h : s.isLoading = true) (hh : s.handleHeld = false) :
      Step s { s with isLoading := false }

/-- Session states reachable by some sequence of stimuli. -/
inductive Reachable : Session → Prop
  | init : Reachable initSession
  | step {s t : Session} : Reachable s → Step s t → Reachable t

/-! The post editor (`PostCard.tsx`, `runLlmEdit` lines 65–102).

The component state relevant to the edit round-trip, and the handler's
effect given the outcome of the `fetch` to the edit endpoint.  The
second component of the result is the argument of the `onUpdate`
callback when it is invoked (the parent replaces the displayed post
with exactly this value); `none` means `onUpdate` is never called and
the displayed post is untouched. -/

structure CardState where
  editedText : JSStr
  editedHashtags : JSStr
  editedCTA : JSStr
  isEditing : Bool
  llmRunning : Bool
  localToast : JSStr

/-- The response of the `POST {base}/edit-post-llm` request. -/
inductive EditResponse where
  /-- Case `res.ok`: the body text handed to `res.json()`. -/
  | ok (body : JSStr)
  /-- Case `!res.ok`: the body text read by `res.text()`. -/
  | httpError (text : JSStr)
  /-- The fetch itself rejects; `msg` is the error's `message`. -/
  | netError (msg : JSStr)

/-- JavaScript `e?.message || "LLM edit failed"`. -/
def toastMsg (m : JSStr) : JSStr := if m.isEmpty then js "LLM edit failed" else m

/-- Value of `updated.text` coerced to the string put into `setEditedText`. -/
def jstrFieldOf (j : Json) (key : JSStr) : JSStr :=
  match jsGet j key with
  | some (.jstr s) => s
  | _ => []

/-- JavaScript `(updated.hashtags || []).join(", ")`. -/
def hashtagsJoined (j : Json) : JSStr :=
  match jsGet j (js "hashtags") with
  | some (.jarr xs) =>
    List.intercalate (js ", ") (xs.map (fun x => match x with | .jstr s => s | _ => []))
  | _ => []

/-- Handler `runLlmEdit`: on an empty (trimmed) instruction only a toast is
shown and no request is made; on a non-OK response `throw new Error(t
|| "LLM edit failed")` is caught and surfaces as a toast; if `res.json()`
fails its `SyntaxError` message surfaces as a toast; only on a parsed
OK response are `onUpdate` invoked and the edit fields overwritten. -/
def runLlmEdit (st : CardState) (instruction : JSStr) (resp : EditResponse) :
    CardState × Option Json :=
  if jsTrim instruction = [] then
    ({ st with localToast := js "Provide an instruction" }, none)
  else
    match resp with
    | .httpError t => ({ st with localToast := toastMsg t, llmRunning := false }, none)
    | .netError m => ({ st with localToast := toastMsg m, llmRunning := false }, none)
    | .ok body =>
      match jsonParse body with
      | .error e => ({ st with localToast := toastMsg e, llmRunning := false }, none)
      | .ok updated =>
        ({ st with editedText := jstrFieldOf updated (js "text"),
                   editedHashtags := hashtagsJoined updated,
                   editedCTA := jstrFieldOf updated (js "cta_suggestion"),
                   isEditing := false, llmRunning := false,
                   localToast := js "LLM edit applied" },
         some updated)

/-! Auxiliary definitions for the proofs. -/

/-- Decomposition of a string into its fully-formed blank-line-delimited
segments and its trailing (possibly incomplete) remainder; proved below
to agree with `splitEvents` followed by `dropLast` / take-last. -/
def popParts : JSStr → List JSStr × JSStr
  | [] => ([], [])
  | [c] => ([], [c])
  | c₁ :: c₂ :: t =>
    if c₁ = '\n' ∧ c₂ = '\n' then
      let r := popParts t
      ([] :: r.1, r.2)
    else
      match popParts (c₂ :: t) with
      | (p :: ps, r) => ((c₁ :: p) :: ps, r)
      | ([], r) => ([], c₁ :: r)

/-- The observable part of a loop state: events, posts and the two
flags.  The trailing buffer is excluded — it is never rendered and is
dead once the run ends. -/
def loopView (st : LoopState) : List Json × List Json × Bool × Bool :=
  (st.events, st.posts, st.isLoading, st.aborted)

/-! Lemmas about splitting and buffering. -/

theorem popParts_cons₂ (c₁ c₂ : Char) (t : JSStr) (hc : ¬(c₁ = '\n' ∧ c₂ = '\n')) :
    popParts (c₁ :: c₂ :: t) =
      (match popParts (c₂ :: t) with
       | (p :: ps, r) => ((c₁ :: p) :: ps, r)
       | ([], r) => ([], c₁ :: r)) := by
  simp only [popParts, if_neg hc]

theorem splitEvents_eq_popParts (s : JSStr) :
    splitEvents s = (popParts s).1 ++ [(popParts s).2] := by
  induction s using popParts.induct with
  | case1 => rfl
  | case2 c => rfl
  | case3 c₁ c₂ t h ih =>
    simp [splitEvents, popParts, if_pos h, ih]
  | case4 c₁ c₂ t h p ps r hpp ih =>
    simp only [hpp] at ih
    simp only [splitEvents, popParts, if_neg h, hpp, ih, List.cons_append, consHead]
  | case5 c₁ c₂ t h r hpp ih =>
    simp only [hpp] at ih
    simp only [splitEvents, popParts, if_neg h, hpp, ih, List.nil_append, consHead]

theorem popParts_fst_nil {s : JSStr} (h : (popParts s).1 = []) : (popParts s).2 = s := by
  induction s using popParts.induct with
  | case1 => rfl
  | case2 c => rfl
  | case3 c₁ c₂ t hc ih =>
    simp [popParts, if_pos hc] at h
  | case4 c₁ c₂ t hc p ps r hpp ih =>
    simp [popParts, if_neg hc, hpp] at h
  | case5 c₁ c₂ t hc r hpp ih =>
    simp only [popParts, if_neg hc, hpp] at h ⊢
    simp only [hpp] at ih
    simp [ih trivial]

theorem popParts_append (a b : JSStr) :
    popParts (a ++ b) =
      ((popParts a).1 ++ (popParts ((popParts a).2 ++ b)).1,
       (popParts ((popParts a).2 ++ b)).2) := by
  induction a using popParts.induct with
  | case1 => simp [popParts]
  | case2 c =>
    simp only [popParts, List.cons_append, List.nil_append]
  | case3 c₁ c₂ t hc ih =>
    simp only [List.cons_append, popParts, if_pos hc, List.append_eq, ih]
  | case4 c₁ c₂ t hc p ps r hpp ih =>
    simp only [hpp, List.cons_append] at ih
    simp only [List.cons_append, popParts, if_neg hc, List.append_eq, hpp, ih]
  | case5 c₁ c₂ t hc r hpp ih =>
    have hr : r = c₂ :: t := by
      have h2 := popParts_fst_nil (s := c₂ :: t) (by rw [hpp])
      rw [hpp] at h2
      exact h2
    simp only [List.cons_append]
    conv_rhs => rw [popParts_cons₂ c₁ c₂ t hc, hpp]
    simp only [List.nil_append, hr, List.cons_append]

/-! Lemmas about segment processing. -/

theorem applyEvent_buffer_set (st : LoopState) (b : JSStr) (j : Json) :
    applyEvent { st with buffer := b } j = { applyEvent st j with buffer := b } := by
  cases st
  simp only [applyEvent]
  split <;> (try split) <;> (try split) <;> rfl

theorem processPart_buffer_set (st : LoopState) (b : JSStr) (p : JSStr) :
    processPart { st with buffer := b } p = { processPart st p with buffer := b } := by
  simp only [processPart]
  split
  · rfl
  · split
    · exact applyEvent_buffer_set st b _
    · cases st; rfl

theorem processParts_buffer_set (ps : List JSStr) (st : LoopState) (b : JSStr) :
    processParts { st with buffer := b } ps = { processParts st ps with buffer := b } := by
  induction ps generalizing st with
  | nil => rfl
  | cons p ps ih =>
    simp only [processParts, processPart_buffer_set]
    generalize processPart st p = X
    have hab : ({ X with buffer := b } : LoopState).aborted = X.aborted := rfl
    rw [hab]
    by_cases h : X.aborted = true
    · rw [if_pos h, if_pos h]
    · rw [if_neg h, if_neg h]
      exact ih X

theorem processParts_append (ps qs : List JSStr) (st : LoopState) (h : st.aborted = false) :
    processParts st (ps ++ qs) =
      (if (processParts st ps).aborted then processParts st ps
       else processParts (processParts st ps) qs) := by
  induction ps generalizing st with
  | nil => simp [processParts, h]
  | cons p ps ih =>
    simp only [List.cons_append, processParts]
    by_cases hb : (processPart st p).aborted
    · simp [hb]
    · simp only [hb, if_false, Bool.false_eq_true]
      exact ih (processPart st p) (by simpa using hb)

theorem processChunk_eq (st : LoopState) (c : JSStr) :
    processChunk st c =
      processParts { st with buffer := (popParts (st.buffer ++ c)).2 }
        (popParts (st.buffer ++ c)).1 := by
  simp only [processChunk, splitEvents_eq_popParts, List.dropLast_concat,
    List.getLastD_concat]

theorem processChunk_append (st : LoopState) (c₁ c₂ : JSStr) (h : st.aborted = false) :
    processChunk st (c₁ ++ c₂) =
      (if (processChunk st c₁).aborted then
        { processChunk st c₁ with
            buffer := (popParts ((processChunk st c₁).buffer ++ c₂)).2 }
       else processChunk (processChunk st c₁) c₂) := by
  have hassoc : st.buffer ++ (c₁ ++ c₂) = (st.buffer ++ c₁) ++ c₂ :=
    (List.append_assoc _ _ _).symm
  have hbufA : (processChunk st c₁).buffer = (popParts (st.buffer ++ c₁)).2 := by
    rw [processChunk_eq, processParts_buffer_set]
  have hA : processChunk st c₁ =
      { processParts st (popParts (st.buffer ++ c₁)).1 with
          buffer := (popParts (st.buffer ++ c₁)).2 } := by
    rw [processChunk_eq, processParts_buffer_set]
  rw [processChunk_eq, hassoc, popParts_append (st.buffer ++ c₁) c₂]
  rw [hbufA]
  rw [processParts_buffer_set, processParts_append _ _ _ h]
  by_cases hab : (processParts st (popParts (st.buffer ++ c₁)).1).aborted = true
  · have hA' : (processChunk st c₁).aborted = true := by rw [hA]; exact hab
    rw [if_pos hab, if_pos hA', hA]
  · have hA' : ¬(processChunk st c₁).aborted = true := by rw [hA]; exact hab
    rw [if_neg hab, if_neg hA']
    rw [processChunk_eq (processChunk st c₁) c₂, hbufA, hA, processParts_buffer_set]
    exact (processParts_buffer_set _ _ _).symm

/-! Lemmas about the read loop. -/

theorem consumeFrom_of_aborted (r : Bool) (st : LoopState) (ca : Option Nat)
    (chunks : List JSStr) (h : st.aborted = true) :
    consumeFrom r st ca chunks = if r then catchAbort st else finishLoop st := by
  cases chunks <;> simp [consumeFrom, h]

theorem consumeFrom_cons (r : Bool) (st : LoopState) (c : JSStr) (cs : List JSStr)
    (h : st.aborted = false) :
    consumeFrom r st none (c :: cs) = consumeFrom r (processChunk st c) none cs := by
  simp [consumeFrom, h]

theorem consumeFrom_merge (r : Bool) (st : LoopState) (c₁ c₂ : JSStr) (cs : List JSStr) :
    loopView (consumeFrom r st none (c₁ :: c₂ :: cs)) =
      loopView (consumeFrom r st none ((c₁ ++ c₂) :: cs)) := by
  by_cases h : st.aborted = true
  · rw [consumeFrom_of_aborted _ _ _ _ h, consumeFrom_of_aborted _ _ _ _ h]
  · have h' : st.aborted = false := by simpa using h
    rw [consumeFrom_cons _ _ _ _ h', consumeFrom_cons _ _ _ _ h']
    rw [processChunk_append st c₁ c₂ h']
    by_cases hA : (processChunk st c₁).aborted = true
    · rw [if_pos hA]
      rw [consumeFrom_of_aborted _ _ _ _ hA, consumeFrom_of_aborted _ _ _ _ (by exact hA)]
      cases r <;> rfl
    · have hA' : (processChunk st c₁).aborted = false := by simpa using hA
      rw [if_neg hA]
      rw [consumeFrom_cons _ _ _ _ hA']

theorem consumeFrom_join_le (r : Bool) (n : Nat) :
    ∀ chunks : List JSStr, chunks.length ≤ n →
      loopView (consumeFrom r initLoopState none chunks) =
        loopView (consumeFrom r initLoopState none [chunks.flatten]) := by
  induction n with
  | zero =>
    intro chunks h
    have : chunks = [] := List.eq_nil_of_length_eq_zero (Nat.le_zero.mp h)
    subst this
    rfl
  | succ n ih =>
    intro chunks h
    match chunks with
    | [] => rfl
    | [c] => simp [List.flatten]
    | c₁ :: c₂ :: cs =>
      rw [consumeFrom_merge]
      have hlen : ((c₁ ++ c₂) :: cs).length ≤ n := by
        simp only [List.length_cons] at h ⊢
        omega
      rw [ih _ hlen]
      have : ((c₁ ++ c₂) :: cs).flatten = (c₁ :: c₂ :: cs).flatten := by
        simp [List.flatten_cons, List.append_assoc]
      rw [this]

theorem applyEvent_events (st : LoopState) (ev : Json) :
    (applyEvent st ev).events = st.events ++ [ev] := by
  simp only [applyEvent]
  split <;> (try split) <;> (try split) <;> rfl

theorem applyEvent_terminal (st : LoopState) (ev : Json)
    (h : typeIs ev (js "COMPLETE") = true ∨ typeIs ev (js "ERROR") = true) :
    (applyEvent st ev).isLoading = false ∧ (applyEvent st ev).aborted = true := by
  have hc : (typeIs ev (js "COMPLETE") = true ∨ typeIs ev (js "ERROR") = true) := h
  simp only [applyEvent]
  rw [if_pos hc]
  exact ⟨rfl, rfl⟩

theorem typeIs_unique {j : Json} {a b : JSStr} (ha : typeIs j a = true)
    (hb : typeIs j b = true) : a = b := by
  unfold typeIs at ha hb
  match h : jsGet j (js "type") with
  | some (.jstr s) =>
    rw [h] at ha hb
    simp only [decide_eq_true_eq] at ha hb
    rw [← ha, ← hb]
  | some .jnull | some (.jbool _) | some (.jnum _) | some (.jarr _) | some (.jobj _) | none =>
    rw [h] at ha
    simp at ha

theorem feed_of_aborted (st : LoopState) (l : List JSStr) (h : st.aborted = true) :
    feed st l = st := by
  cases l with
  | nil => rfl
  | cons c cs => rw [feed, if_pos h]

theorem feed_aborted_false {st : LoopState} {l : List JSStr}
    (h : (feed st l).aborted = false) : st.aborted = false := by
  by_contra hab
  rw [feed_of_aborted st l (by simpa using hab)] at h
  rw [h] at hab
  exact hab rfl

theorem consumeFrom_cancel (r : Bool) :
    ∀ (k : Nat) (chunks : List JSStr) (st : LoopState),
      k ≤ chunks.length →
      (feed st (chunks.take k)).aborted = false →
      consumeFrom r st (some k) chunks = catchAbort (feed st (chunks.take k)) := by
  intro k
  induction k with
  | zero =>
    intro chunks st _ hterm
    have hab : st.aborted = false := by simpa [feed] using hterm
    cases chunks <;> simp [consumeFrom, hab, feed]
  | succ k ih =>
    intro chunks st hk hterm
    match chunks with
    | [] => simp at hk
    | c :: cs =>
      have hab : st.aborted = false := feed_aborted_false (l := (c :: cs).take (k + 1)) hterm
      have hfeed : feed st ((c :: cs).take (k + 1)) = feed (processChunk st c) (cs.take k) := by
        simp only [List.take_succ_cons, feed, hab, Bool.false_eq_true, if_false]
      rw [hfeed] at hterm
      rw [consumeFrom, if_neg (by rw [hab]; simp), if_neg (by simp)]
      have : (some (k + 1)).map Nat.pred = some k := rfl
      rw [this]
      rw [ih cs (processChunk st c) (by simpa using hk) hterm, hfeed]

/-! Lemma for the session machine. -/

theorem session_invariant : ∀ s : Session, Reachable s →
    (s.isLoading = true ↔ s.handleHeld = true) := by
  intro s h
  induction h with
  | init => simp [initSession]
  | step hr hstep ih =>
    cases hstep with
    | submit _ => simp
    | respondOk _ => simpa using ih
    | respondFail status text _ => simp
    | fetchNetError msg _ => simp
    | chunk c rejects _ =>
      rw [chunkStep]
      split
      · simp
      · simpa using ih
    | streamEnd _ => simp
    | readNetError msg _ => simp
    | cancel _ _ => simp
    | cancelNoHandle _ hh => simp [hh]

/-! The claims. -/

/-- C1 (chunk-boundary independence): for every stream text and every
way of splitting it into a sequence of chunks, feeding the chunks one
at a time through the buffer-append / split-on-blank-line /
retain-trailing-segment loop yields the same final ordered event list
and post list as feeding the entire stream as one chunk — for either
outcome `r` of the post-abort read (and byte-level splits inside a
multi-byte character coincide with text-level splits thanks to the
stateful decoder, see the module comment). -/
theorem chunk_boundary_independence (r : Bool) (chunks : List JSStr) :
    (handleSubmitRun r none (.ok chunks)).events =
        (handleSubmitRun r none (.ok [chunks.flatten])).events ∧
      (handleSubmitRun r none (.ok chunks)).posts =
        (handleSubmitRun r none (.ok [chunks.flatten])).posts := by
  have h := consumeFrom_join_le r chunks.length chunks le_rfl
  exact ⟨congrArg (fun v => v.1) h, congrArg (fun v => v.2.1) h⟩

/-- C2, amended (terminal-event halting): parsing an event whose `type`
is `COMPLETE` or `ERROR` appends it, clears the in-progress flag and
aborts the request (`aborted` also records the `break`); from an
aborted state the loop reads no further chunk — the result does not
depend on the pending chunks at all — appends no further stream-parsed
event, and leaves the flag cleared.  The one departure from the claim
as stated: when the post-abort read rejects (`r = true`, the usual
race outcome) the `catch` appends one final informational
`PROGRESS`/`Stream aborted.` event. -/
theorem terminal_event_halts :
    (∀ (st : LoopState) (ev : Json),
      typeIs ev (js "COMPLETE") = true ∨ typeIs ev (js "ERROR") = true →
      (applyEvent st ev).events = st.events ++ [ev] ∧
      (applyEvent st ev).isLoading = false ∧
      (applyEvent st ev).aborted = true) ∧
    (∀ (r : Bool) (st : LoopState) (ca : Option Nat) (chunks : List JSStr),
      st.aborted = true →
      consumeFrom r st ca chunks = consumeFrom r st ca [] ∧
      (consumeFrom r st ca chunks).events =
        st.events ++ (if r then [abortNoticeEvent] else []) ∧
      (consumeFrom r st ca chunks).posts = st.posts ∧
      (consumeFrom r st ca chunks).isLoading = false) := by
  constructor
  · intro st ev h
    exact ⟨applyEvent_events st ev, applyEvent_terminal st ev h⟩
  · intro r st ca chunks h
    rw [consumeFrom_of_aborted r st ca chunks h, consumeFrom_of_aborted r st ca [] h]
    refine ⟨rfl, ?_, ?_, ?_⟩ <;> cases r <;> simp [catchAbort, finishLoop]

/-- Witness for C2 at concrete inputs: a parsed `COMPLETE` event clears
the flag and aborts, and an aborted consumer facing a pending chunk
never parses it. -/
theorem terminal_event_halts_witness :
    ((applyEvent initLoopState (Json.jobj [(js "type", Json.jstr (js "COMPLETE"))])).isLoading = false ∧
     (applyEvent initLoopState (Json.jobj [(js "type", Json.jstr (js "COMPLETE"))])).aborted = true) ∧
    (consumeFrom true
        { buffer := [], events := [Json.jobj [(js "type", Json.jstr (js "COMPLETE"))]],
          posts := [], isLoading := false, aborted := true } none [js "never read"]).events =
      [Json.jobj [(js "type", Json.jstr (js "COMPLETE"))]] ++ (if true then [abortNoticeEvent] else []) :=
  ⟨(terminal_event_halts.1 initLoopState
      (Json.jobj [(js "type", Json.jstr (js "COMPLETE"))]) (Or.inl rfl)).2,
   (terminal_event_halts.2 true
      { buffer := [], events := [Json.jobj [(js "type", Json.jstr (js "COMPLETE"))]],
        posts := [], isLoading := false, aborted := true } none [js "never read"] rfl).2.1⟩

/-- Counterexample to C2 as stated: after the terminal `COMPLETE` event
one further event — the `PROGRESS`/`Stream aborted.` notice produced by
the rejected post-abort read — is appended to the event list. -/
theorem terminal_event_halts_counterexample :
    (handleSubmitRun true none (.ok [js "data: \x7b\"type\":\"COMPLETE\"\x7d\n\n"])).events =
      [Json.jobj [(js "type", Json.jstr (js "COMPLETE"))], abortNoticeEvent] ∧
    typeIs (Json.jobj [(js "type", Json.jstr (js "COMPLETE"))]) (js "COMPLETE") = true ∧
    abortNoticeEvent ≠ Json.jobj [(js "type", Json.jstr (js "COMPLETE"))] := by
  refine ⟨rfl, rfl, ?_⟩
  intro h
  have := congrArg (fun j => typeIs j (js "COMPLETE")) h
  simp [abortNoticeEvent, typeIs, jsGet, js] at this

/-- Counterexample to C3 as stated: with the usual race outcome (the
post-abort read rejects) the final event list is not exactly
`[PROGRESS("searching"), COMPLETE]` — a third entry follows. -/
theorem two_event_example_counterexample :
    ¬ ((handleSubmitRun true none
          (.ok [js "data: \x7b\"type\":\"PROGRESS\",\"message\":\"searching\"\x7d\n\n",
                js "data: \x7b\"type\":\"COMPLETE\"\x7d\n\n"])).events =
        [Json.jobj [(js "type", Json.jstr (js "PROGRESS")), (js "message", Json.jstr (js "searching"))],
         Json.jobj [(js "type", Json.jstr (js "COMPLETE"))]] ∧
       (handleSubmitRun true none
          (.ok [js "data: \x7b\"type\":\"PROGRESS\",\"message\":\"searching\"\x7d\n\n",
                js "data: \x7b\"type\":\"COMPLETE\"\x7d\n\n"])).posts = [] ∧
       (handleSubmitRun true none
          (.ok [js "data: \x7b\"type\":\"PROGRESS\",\"message\":\"searching\"\x7d\n\n",
                js "data: \x7b\"type\":\"COMPLETE\"\x7d\n\n"])).isLoading = false) := by
  intro hcl
  have hlen : (handleSubmitRun true none
          (.ok [js "data: \x7b\"type\":\"PROGRESS\",\"message\":\"searching\"\x7d\n\n",
                js "data: \x7b\"type\":\"COMPLETE\"\x7d\n\n"])).events.length = 3 := rfl
  rw [hcl.1] at hlen
  simp at hlen

/-- C3, amended (two-event example): the two chunks produce the event
list `[PROGRESS("searching"), COMPLETE]`, followed by one
`PROGRESS`/`Stream aborted.` entry exactly when the post-abort read
rejects; the post list is empty and in-progress is false. -/
theorem two_event_example (r : Bool) :
    (handleSubmitRun r none
        (.ok [js "data: \x7b\"type\":\"PROGRESS\",\"message\":\"searching\"\x7d\n\n",
              js "data: \x7b\"type\":\"COMPLETE\"\x7d\n\n"])).events =
      [Json.jobj [(js "type", Json.jstr (js "PROGRESS")), (js "message", Json.jstr (js "searching"))],
       Json.jobj [(js "type", Json.jstr (js "COMPLETE"))]] ++
        (if r then [abortNoticeEvent] else []) ∧
    (handleSubmitRun r none
        (.ok [js "data: \x7b\"type\":\"PROGRESS\",\"message\":\"searching\"\x7d\n\n",
              js "data: \x7b\"type\":\"COMPLETE\"\x7d\n\n"])).posts = [] ∧
    (handleSubmitRun r none
        (.ok [js "data: \x7b\"type\":\"PROGRESS\",\"message\":\"searching\"\x7d\n\n",
              js "data: \x7b\"type\":\"COMPLETE\"\x7d\n\n"])).isLoading = false := by
  cases r <;> exact ⟨rfl, rfl, rfl⟩

/-- C4, amended: handling one successfully parsed event appends exactly
that event to the event list; it additionally appends the payload to
the post list exactly when the `type` is `POST_GENERATED` and the
`payload` property is present and truthy — a `POST_GENERATED` event
without a truthy payload leaves the post list unchanged, and a
`PROGRESS` event always leaves it unchanged. -/
theorem post_generated_appends (st : LoopState) (ev : Json) :
    (typeIs ev (js "POST_GENERATED") = true →
      ∀ payload : Json, jsGet ev (js "payload") = some payload →
        jsTruthy (some payload) = true →
        (applyEvent st ev).events = st.events ++ [ev] ∧
        (applyEvent st ev).posts = st.posts ++ [payload]) ∧
    (typeIs ev (js "POST_GENERATED") = true →
      jsTruthy (jsGet ev (js "payload")) = false →
        (applyEvent st ev).events = st.events ++ [ev] ∧
        (applyEvent st ev).posts = st.posts) ∧
    (typeIs ev (js "PROGRESS") = true →
        (applyEvent st ev).events = st.events ++ [ev] ∧
        (applyEvent st ev).posts = st.posts) := by
  refine ⟨?_, ?_, ?_⟩
  · intro hty payload hget htr
    have hcond : typeIs ev (js "POST_GENERATED") = true ∧
        jsTruthy (some payload) = true := ⟨hty, htr⟩
    refine ⟨applyEvent_events st ev, ?_⟩
    simp only [applyEvent, hget, if_pos hcond]
    split <;> rfl
  · intro hty hfalse
    have hcond : ¬(typeIs ev (js "POST_GENERATED") = true ∧
        jsTruthy (jsGet ev (js "payload")) = true) := by
      intro hand
      rw [hand.2] at hfalse
      exact absurd hfalse (by simp)
    refine ⟨applyEvent_events st ev, ?_⟩
    simp only [applyEvent, if_neg hcond]
    split <;> rfl
  · intro hty
    have hcond : ¬(typeIs ev (js "POST_GENERATED") = true ∧
        jsTruthy (jsGet ev (js "payload")) = true) := by
      intro hand
      have := typeIs_unique hty hand.1
      simp [js] at this
    refine ⟨applyEvent_events st ev, ?_⟩
    simp only [applyEvent, if_neg hcond]
    split <;> rfl

/-- Witness for C4: a `POST_GENERATED` event carrying a payload appends
one entry to each list. -/
theorem post_generated_appends_witness :
    (applyEvent initLoopState
        (Json.jobj [(js "type", Json.jstr (js "POST_GENERATED")),
                    (js "payload", Json.jobj [(js "text", Json.jstr (js "hi"))])])).events =
      initLoopState.events ++
        [Json.jobj [(js "type", Json.jstr (js "POST_GENERATED")),
                    (js "payload", Json.jobj [(js "text", Json.jstr (js "hi"))])]] ∧
    (applyEvent initLoopState
        (Json.jobj [(js "type", Json.jstr (js "POST_GENERATED")),
                    (js "payload", Json.jobj [(js "text", Json.jstr (js "hi"))])])).posts =
      initLoopState.posts ++ [Json.jobj [(js "text", Json.jstr (js "hi"))]] :=
  (post_generated_appends initLoopState
      (Json.jobj [(js "type", Json.jstr (js "POST_GENERATED")),
                  (js "payload", Json.jobj [(js "text", Json.jstr (js "hi"))])])).1
    rfl (Json.jobj [(js "text", Json.jstr (js "hi"))]) rfl rfl

/-- Counterexample to C4 as stated: a well-formed `POST_GENERATED`
event without a payload appends to the event list but nothing to the
post list. -/
theorem post_generated_appends_counterexample :
    typeIs (Json.jobj [(js "type", Json.jstr (js "POST_GENERATED"))]) (js "POST_GENERATED") = true ∧
    (processPart initLoopState (js "data: \x7b\"type\":\"POST_GENERATED\"\x7d")).events =
      [Json.jobj [(js "type", Json.jstr (js "POST_GENERATED"))]] ∧
    (processPart initLoopState (js "data: \x7b\"type\":\"POST_GENERATED\"\x7d")).posts = [] :=
  ⟨rfl, rfl, rfl⟩

/-- C5, amended (segment-to-payload reconstruction): a segment is
processed purely through its selected lines — the lines that, after
trimming surrounding whitespace, begin with `data:` (the prefix and at
most one immediately following whitespace character are then stripped
and the results joined with newlines, see `segmentDataLines` /
`segmentPayload`).  A segment produces no event—leaves the state
untouched—exactly when it has no selected line, and two segments with
the same selected lines are processed identically (all other lines are
discarded). -/
theorem segment_reconstruction :
    (∀ (st : LoopState) (part : JSStr),
      processPart st part = st ↔ segmentDataLines part = []) ∧
    (∀ (st : LoopState) (p q : JSStr), segmentDataLines p = segmentDataLines q →
      processPart st p = processPart st q) := by
  constructor
  · intro st part
    constructor
    · intro heq
      by_contra hne
      have hev : (processPart st part).events = st.events := by rw [heq]
      rw [processPart, if_neg hne] at hev
      match hpp : jsonParse (segmentPayload part) with
      | .ok parsed =>
        rw [hpp] at hev
        rw [applyEvent_events] at hev
        simpa using congrArg List.length hev
      | .error e =>
        rw [hpp] at hev
        simp only at hev
        simpa using congrArg List.length hev
    · intro h
      rw [processPart, if_pos h]
  · intro st p q h
    simp only [processPart, segmentPayload, h]

/-- Witness for C5: a comment line is discarded, so a segment with and
without it is processed identically. -/
theorem segment_reconstruction_witness :
    segmentDataLines (js "data: 1\n: comment") = segmentDataLines (js "data: 1") ∧
    processPart initLoopState (js "data: 1\n: comment") =
      processPart initLoopState (js "data: 1") :=
  ⟨rfl, segment_reconstruction.2 initLoopState (js "data: 1\n: comment") (js "data: 1") rfl⟩

/-- Counterexample to C5 as stated: the segment consisting of the single
line `" data:\t5"` does not begin with the literal prefix `data:`, yet
it is selected (lines are trimmed before the check) and an event is
produced; moreover the stripped character after the prefix is a tab,
not a space. -/
theorem segment_reconstruction_counterexample :
    startsWithData (js " data:\t5") = false ∧
    segmentDataLines (js " data:\t5") = [js "data:\t5"] ∧
    segmentPayload (js " data:\t5") = js "5" ∧
    (processPart initLoopState (js " data:\t5")).events = [Json.jnum (js "5")] :=
  ⟨rfl, rfl, rfl, rfl⟩

/-- C6 (malformed payloads are non-terminal): a segment with `data:`
lines whose reconstructed payload fails to parse appends exactly one
`ERROR` event embedding the parse failure, appends nothing to the post
list, leaves the in-progress flag and the abort flag untouched, and the
segment loop continues with the remaining segments unaffected. -/
theorem malformed_payload_nonterminal (st : LoopState) (part : JSStr) (e : JSStr)
    (rest : List JSStr)
    (hdl : segmentDataLines part ≠ [])
    (hparse : jsonParse (segmentPayload part) = .error e)
    (hab : st.aborted = false) :
    processPart st part = { st with events := st.events ++ [parseErrorEvent e] } ∧
    (processPart st part).posts = st.posts ∧
    (processPart st part).isLoading = st.isLoading ∧
    (processPart st part).aborted = false ∧
    processParts st (part :: rest) =
      processParts { st with events := st.events ++ [parseErrorEvent e] } rest := by
  have h1 : processPart st part = { st with events := st.events ++ [parseErrorEvent e] } := by
    rw [processPart, if_neg hdl, hparse]
  refine ⟨h1, by rw [h1], by rw [h1], by rw [h1]; exact hab, ?_⟩
  rw [processParts, h1]
  have : ({ st with events := st.events ++ [parseErrorEvent e] } : LoopState).aborted = false := hab
  rw [this]
  simp only [Bool.false_eq_true, if_false]

/-- Witness for C6 at a concrete malformed segment. -/
theorem malformed_payload_nonterminal_witness :
    processPart initLoopState (js "data: \x7boops") =
      { initLoopState with
          events := initLoopState.events ++
            [parseErrorEvent (js "Expected double-quoted property name in JSON")] } ∧
    (processPart initLoopState (js "data: \x7boops")).aborted = false :=
  ⟨(malformed_payload_nonterminal initLoopState (js "data: \x7boops")
      (js "Expected double-quoted property name in JSON") [] (by decide) rfl rfl).1,
   (malformed_payload_nonterminal initLoopState (js "data: \x7boops")
      (js "Expected double-quoted property name in JSON") [] (by decide) rfl rfl).2.2.2.1⟩

/-- C7 (failed submission is terminal): every response failing the
`!res.ok || !res.body` check yields exactly the state with one ERROR
event carrying the status code and response text, an empty post list
and a cleared in-progress flag, never entering stream consumption (no
chunk is ever read and nothing is retried — the result is a constant of
the status and text); in particular HTTP 500 with body `overloaded`
yields the event `ERROR("Server error: 500 overloaded")`. -/
theorem failed_submission_terminal (r : Bool) (ca : Option Nat) (status : Nat) (text : JSStr) :
    handleSubmitRun r ca (.noStream status text) =
      { buffer := [], events := [serverErrorEvent status text], posts := [],
        isLoading := false, aborted := false } ∧
    serverErrorEvent 500 (js "overloaded") =
      Json.jobj [(js "type", Json.jstr (js "ERROR")),
                 (js "message", Json.jstr (js "Server error: 500 overloaded"))] :=
  ⟨rfl, rfl⟩

/-- C8 (user cancellation is informational): if the user cancels while
the `(k+1)`-st read is pending and no terminal event has occurred in
the first `k` chunks, the run ends in the state reached after those `k`
chunks with exactly one `PROGRESS`-kind (not `ERROR`-kind)
`Stream aborted.` event appended, the in-progress flag cleared, and
every post received before the cancellation retained. -/
theorem user_cancellation_informational (r : Bool) (chunks : List JSStr) (k : Nat)
    (hk : k ≤ chunks.length)
    (hterm : (feed initLoopState (chunks.take k)).aborted = false) :
    consumeFrom r initLoopState (some k) chunks =
      { feed initLoopState (chunks.take k) with
          events := (feed initLoopState (chunks.take k)).events ++ [abortNoticeEvent],
          isLoading := false } ∧
    (consumeFrom r initLoopState (some k) chunks).posts =
      (feed initLoopState (chunks.take k)).posts ∧
    typeIs abortNoticeEvent (js "PROGRESS") = true ∧
    typeIs abortNoticeEvent (js "ERROR") = false := by
  have h := consumeFrom_cancel r k chunks initLoopState hk hterm
  exact ⟨h, by rw [h]; rfl, rfl, rfl⟩

/-- Witness for C8: cancelling after one delivered `POST_GENERATED`
chunk retains the post. -/
theorem user_cancellation_informational_witness :
    consumeFrom true initLoopState (some 1)
        [js "data: \x7b\"type\":\"POST_GENERATED\",\"payload\":\x7b\"text\":\"hi\"\x7d\x7d\n\n",
         js "data: \x7b\"type\":\"COMPLETE\"\x7d\n\n"] =
      { feed initLoopState
          ([js "data: \x7b\"type\":\"POST_GENERATED\",\"payload\":\x7b\"text\":\"hi\"\x7d\x7d\n\n",
            js "data: \x7b\"type\":\"COMPLETE\"\x7d\n\n"].take 1) with
          events := (feed initLoopState
              ([js "data: \x7b\"type\":\"POST_GENERATED\",\"payload\":\x7b\"text\":\"hi\"\x7d\x7d\n\n",
                js "data: \x7b\"type\":\"COMPLETE\"\x7d\n\n"].take 1)).events ++ [abortNoticeEvent],
          isLoading := false } ∧
    (feed initLoopState
        ([js "data: \x7b\"type\":\"POST_GENERATED\",\"payload\":\x7b\"text\":\"hi\"\x7d\x7d\n\n",
          js "data: \x7b\"type\":\"COMPLETE\"\x7d\n\n"].take 1)).posts =
      [Json.jobj [(js "text", Json.jstr (js "hi"))]] :=
  ⟨(user_cancellation_informational true
      [js "data: \x7b\"type\":\"POST_GENERATED\",\"payload\":\x7b\"text\":\"hi\"\x7d\x7d\n\n",
       js "data: \x7b\"type\":\"COMPLETE\"\x7d\n\n"] 1 (by decide) rfl).1,
   rfl⟩

/-- C9 (session-state invariant): in every session state reachable by
a sequence of stimuli (each handler running to quiescence), the
in-progress flag is true exactly when the cancellation handle is held;
and the state produced by a submission — the only step targeting the
awaiting-response phase — has both the event list and the post list
reset to empty. -/
theorem session_flag_handle_iff :
    (∀ s : Session, Reachable s → (s.isLoading = true ↔ s.handleHeld = true)) ∧
    (∀ s t : Session, Reachable s → Step s t → t.phase = Phase.awaitingResponse →
      t.events = [] ∧ t.posts = []) := by
  refine ⟨session_invariant, ?_⟩
  intro s t hr hstep hphase
  cases hstep with
  | submit _ => exact ⟨rfl, rfl⟩
  | respondOk _ => simp at hphase
  | respondFail status text _ => simp at hphase
  | fetchNetError msg _ => simp at hphase
  | chunk c rejects hstr =>
    rw [chunkStep] at hphase
    revert hphase
    split
    · intro hphase; simp at hphase
    · intro hphase
      simp only at hphase
      rw [hstr] at hphase
      simp at hphase
  | streamEnd _ => simp at hphase
  | readNetError msg _ => simp at hphase
  | cancel _ _ => simp at hphase
  | cancelNoHandle hld hh =>
    have hhh := (session_invariant s hr).mp hld
    rw [hhh] at hh
    simp at hh

/-- Witness for C9: the initial state satisfies the invariant, and the
submission step from it produces empty lists. -/
theorem session_flag_handle_iff_witness :
    (initSession.isLoading = true ↔ initSession.handleHeld = true) ∧
    (({ events := [], posts := [], isLoading := true, handleHeld := true,
        phase := .awaitingResponse, buffer := [] } : Session).events = [] ∧
     ({ events := [], posts := [], isLoading := true, handleHeld := true,
        phase := .awaitingResponse, buffer := [] } : Session).posts = []) :=
  ⟨session_flag_handle_iff.1 initSession Reachable.init,
   session_flag_handle_iff.2 initSession _ Reachable.init
     (Step.submit initSession rfl) rfl⟩

/-- C10 (edit round-trip atomicity): whenever the server-assisted edit
request fails — non-success HTTP status, a network error, or a
response body that is not valid JSON — `onUpdate` is never invoked
(so the displayed post is untouched) and every edit field of the card
is left unchanged, the failure surfacing only in the local transient
toast; conversely the replacement is emitted only for an OK response
whose body parses, and it is exactly the parsed body. -/
theorem edit_roundtrip_atomic (st : CardState) (instruction : JSStr) (resp : EditResponse) :
    ((∃ t, resp = .httpError t) ∨ (∃ m, resp = .netError m) ∨
      (∃ body e, resp = .ok body ∧ jsonParse body = .error e) →
      (runLlmEdit st instruction resp).2 = none ∧
      (runLlmEdit st instruction resp).1.editedText = st.editedText ∧
      (runLlmEdit st instruction resp).1.editedHashtags = st.editedHashtags ∧
      (runLlmEdit st instruction resp).1.editedCTA = st.editedCTA ∧
      (runLlmEdit st instruction resp).1.isEditing = st.isEditing) ∧
    (∀ j : Json, (runLlmEdit st instruction resp).2 = some j →
      ∃ body, resp = .ok body ∧ jsonParse body = .ok j) := by
  constructor
  · intro hfail
    by_cases hi : jsTrim instruction = []
    · rw [runLlmEdit.eq_def, if_pos hi]
      exact ⟨rfl, rfl, rfl, rfl, rfl⟩
    · rw [runLlmEdit.eq_def, if_neg hi]
      rcases hfail with ⟨t, rfl⟩ | ⟨m, rfl⟩ | ⟨body, e, rfl, hparse⟩
      · exact ⟨rfl, rfl, rfl, rfl, rfl⟩
      · exact ⟨rfl, rfl, rfl, rfl, rfl⟩
      · simp [hparse]
  · intro j hj
    rw [runLlmEdit.eq_def] at hj
    split at hj
    · exact absurd hj (by simp)
    · split at hj
      next t => exact absurd hj (by simp)
      next m => exact absurd hj (by simp)
      next body =>
        split at hj
        next e heq => exact absurd hj (by simp)
        next updated heq =>
          simp only [Option.some.injEq] at hj
          exact ⟨body, rfl, by rw [heq, hj]⟩

/-- Witness for C10: a failing edit request leaves the card unchanged
and emits no replacement. -/
theorem edit_roundtrip_atomic_witness :
    (runLlmEdit ⟨js "draft", js "ai", js "call", true, true, []⟩
        (js "shorten") (.httpError (js "boom"))).2 = none ∧
    (runLlmEdit ⟨js "draft", js "ai", js "call", true, true, []⟩
        (js "shorten") (.httpError (js "boom"))).1.editedText = js "draft" :=
  ⟨((edit_roundtrip_atomic ⟨js "draft", js "ai", js "call", true, true, []⟩
        (js "shorten") (.httpError (js "boom"))).1 (Or.inl ⟨js "boom", rfl⟩)).1,
   ((edit_roundtrip_atomic ⟨js "draft", js "ai", js "call", true, true, []⟩
        (js "shorten") (.httpError (js "boom"))).1 (Or.inl ⟨js "boom", rfl⟩)).2.1⟩
